import Mathlib

/-!
Verification development for the `mcp-server-port-cleaner` repository
(`src/index.ts`).  The service discovers processes bound to a network
port, classifies the port against a fixed table of system ports, and
terminates occupants of non-protected ports.

The embedding below is a shallow model of `src/index.ts`:

* external effects (the platform lookup command's raw output and the
  per-attempt result of the kill command) are supplied by an `Env`
  record;
* a thrown JS exception is modelled as `Except.error` carrying the
  message string;
* the handlers additionally return a trace of `Event`s recording which
  external facilities were invoked (one `Event.lookup` per call of
  `getProcessInfoByPort`, one `Event.kill pid` per spawned kill
  command), so that "never invokes termination" claims are statable.

JavaScript string quirks that the source relies on are modelled
explicitly: `split`, `trim`, template interpolation of `undefined`
(which prints as the text "undefined"), and the `||` default operator
(which also replaces the empty string).
-/

namespace PortCleaner

/-- The three platforms the source supports (`process.platform` keys of
`SYSTEM_PORTS`). -/
inductive Platform
  | win32
  | darwin
  | linux
deriving DecidableEq, Repr

/-- `SYSTEM_PORTS.win32` from `src/index.ts`. -/
def SYSTEM_PORTS_win32 : List Nat :=
  [21, 22, 23, 25, 53, 80, 110, 443, 3389, 593, 445, 135, 139, 1433]

/-- `SYSTEM_PORTS.darwin` from `src/index.ts`. -/
def SYSTEM_PORTS_darwin : List Nat := [22, 53, 80, 443, 123, 445, 548, 88]

/-- `SYSTEM_PORTS.linux` from `src/index.ts`. -/
def SYSTEM_PORTS_linux : List Nat := [22, 25, 53, 80, 110, 123, 21, 23, 3389]

/-- `SYSTEM_PORTS.common = new Set([...Array(1024).keys()])`, i.e. ports 0–1023. -/
def SYSTEM_PORTS_common : List Nat := List.range 1024

/-- The platform-specific supplementary system-port set. -/
def platformPorts : Platform → List Nat
  | .win32 => SYSTEM_PORTS_win32
  | .darwin => SYSTEM_PORTS_darwin
  | .linux => SYSTEM_PORTS_linux

/-- One parsed process record (`getProcessInfoByPort` element type).
In the source `pid` is declared `string`, but the parsed JS value can
be `undefined` for a truncated POSIX row, so every field is an
`Option`; `none` models the JS value `undefined`. -/
structure ProcessRecord where
  pid : Option String
  name : Option String
  user : Option String
  protocol : Option String
deriving DecidableEq, Repr

/-- JS template interpolation `${x}`: `undefined` prints as "undefined". -/
def jsTemplate (o : Option String) : String := o.getD "undefined"

/-- JS `x || d`: `undefined` and the empty string are falsy and replaced by `d`. -/
def jsOrDefault (o : Option String) (d : String) : String :=
  match o with
  | none => d
  | some s => if s.isEmpty then d else s

/-- JS `Array.prototype.join(sep)`. -/
def jsJoin (sep : String) : List String → String
  | [] => ""
  | [x] => x
  | x :: y :: rest => x ++ sep ++ jsJoin sep (y :: rest)

/-- `startsWithList s pat` holds when `pat` is an initial segment of `s`
(helper for JS `String.prototype.includes`). -/
def startsWithList : List Char → List Char → Bool
  | _, [] => true
  | [], _ :: _ => false
  | a :: as, b :: bs => a == b && startsWithList as bs

/-- `containsList s pat`: JS `s.includes(pat)` on character lists. -/
def containsList : List Char → List Char → Bool
  | [], pat => startsWithList [] pat
  | s@(_ :: rest), pat => startsWithList s pat || containsList rest pat

/-- Split a character list at every occurrence of a separator character,
like JS `String.prototype.split('\n')` (an empty input yields one empty
piece). -/
def splitListOn (sep : Char) : List Char → List (List Char)
  | [] => [[]]
  | c :: rest =>
    let r := splitListOn sep rest
    if c == sep then [] :: r else (c :: r.headD []) :: r.tail

/-- Split at every character satisfying `p` (empty pieces kept), the
generalisation of `splitListOn` used for the `/\s+/` regex split. -/
def splitOnPred (p : Char → Bool) : List Char → List (List Char)
  | [] => [[]]
  | c :: rest =>
    let r := splitOnPred p rest
    if p c then [] :: r else (c :: r.headD []) :: r.tail

/-- Whitespace test used by JS `trim` and the `/\s+/` split. -/
def isWsChar (c : Char) : Bool := c.isWhitespace

/-- JS `String.prototype.trim` on a character list. -/
def trimChars (cs : List Char) : List Char :=
  ((cs.dropWhile isWsChar).reverse.dropWhile isWsChar).reverse

/-- `line.trim().split(/\s+/)` of the source, as a list of tokens.
For a trimmed empty string JS yields `[""]`; otherwise the regex split
of a trimmed string yields exactly the non-empty whitespace-separated
tokens. -/
def jsSplitTrim (line : List Char) : List String :=
  let t := trimChars line
  if t.isEmpty then [""]
  else ((splitOnPred isWsChar t).filter fun tok => !tok.isEmpty).map
    fun tok => String.mk tok

/-- `result.split('\n').filter(Boolean)`: the non-empty output lines. -/
def rawLineLists (s : String) : List (List Char) :=
  (splitListOn (Char.ofNat 10) s.data).filter fun cs => !cs.isEmpty

/-- Filter of the win32 branch: `line.includes('LISTENING')`. -/
def win32Keep (line : List Char) : Bool := containsList line "LISTENING".data

/-- Filter of the POSIX branch: `!line.includes('PID')` (drops the lsof header). -/
def posixKeep (line : List Char) : Bool := !containsList line "PID".data

/-- The win32 per-line parser: columns are
`0: protocol, 1: local address, 2: remote address, 3: state, 4: PID`;
`pid: parts[4] || 'N/A'`, `name: parts[1]`, `protocol: parts[0]`, and no
`user` key is set. -/
def parseWin32Line (line : List Char) : ProcessRecord :=
  let parts := jsSplitTrim line
  { pid := some (jsOrDefault (parts.get? 4) "N/A")
    name := parts.get? 1
    user := none
    protocol := parts.get? 0 }

/-- The POSIX (lsof) per-line parser: columns are
`0: command, 1: PID, 2: user, ..., 7: node/protocol`. -/
def parsePosixLine (line : List Char) : ProcessRecord :=
  let parts := jsSplitTrim line
  { pid := parts.get? 1
    name := parts.get? 0
    user := parts.get? 2
    protocol := parts.get? 7 }

/-- The pure parsing part of `PortCleanerService.getProcessInfoByPort`,
applied to the raw text output of the platform lookup command. -/
def parseOutput : Platform → String → List ProcessRecord
  | .win32, result => ((rawLineLists result).filter win32Keep).map parseWin32Line
  | .darwin, result => ((rawLineLists result).filter posixKeep).map parsePosixLine
  | .linux, result => ((rawLineLists result).filter posixKeep).map parsePosixLine

/-- The environment a single request runs in: the platform, the result
of invoking the lookup command (`Except.error` models a thrown
exception, `Except.ok` its captured stdout text), and the per-attempt
outcome of the kill command (`kill i pid` is the success of the `i`-th
spawned termination attempt, counting from 0 within one batch). -/
structure Env where
  platform : Platform
  lookupResult : Except String String
  kill : Nat → String → Bool

/-- `PortCleanerService.getProcessInfoByPort`: invoke the lookup command
and parse its output; a command failure propagates as a thrown error. -/
def getProcessInfoByPort (env : Env) : Except String (List ProcessRecord) :=
  env.lookupResult.map (parseOutput env.platform)

/-- `PortCleanerService.isSystemPort`. -/
def isSystemPort (platform : Platform) (port : Nat) : Bool :=
  SYSTEM_PORTS_common.contains port || (platformPorts platform).contains port

/-- Result of `PortCleanerService.processTermination`. -/
structure TerminationOutcome where
  killedPids : List String
  failedPids : List String
deriving DecidableEq, Repr

/-- The per-pid attempts of `processTermination`: each element of `pids`
gets its own independent `killProcess` invocation (modelled by the
oracle applied at the attempt's index), which never throws and yields a
boolean success (`killProcess` catches all errors and returns `false`). -/
def attemptResultsFrom (kill : Nat → String → Bool) (i : Nat) :
    List String → List (String × Bool)
  | [] => []
  | pid :: rest => (pid, kill i pid) :: attemptResultsFrom kill (i + 1) rest

/-- `PortCleanerService.processTermination`: run every attempt, then
split the aggregated results into killed and failed pid lists. -/
def processTermination (kill : Nat → String → Bool) (pids : List String) :
    TerminationOutcome :=
  let results := attemptResultsFrom kill 0 pids
  { killedPids := (results.filter fun r => r.2).map Prod.fst
    failedPids := (results.filter fun r => !r.2).map Prod.fst }

/-- One content segment of a response is a text string; the response
carries the segments and the error flag. -/
structure ToolResponse where
  content : List String
  isError : Bool
deriving DecidableEq, Repr

/-- Observable external invocations of one request. -/
inductive Event
  | lookup
  | kill (pid : String)
deriving DecidableEq, Repr

/-- The newline used by the source's template literals. -/
def newline : String := "\n"

/-- The `PID: ..., 进程名: ..., 用户: ..., 协议: ...` line built for one
process record (shared by `handleSystemPortRequest` and the scan tool). -/
def describeProcess (p : ProcessRecord) : String :=
  "PID: " ++ jsTemplate p.pid ++ ", 进程名: " ++ jsOrDefault p.name "无" ++
    ", 用户: " ++ jsOrDefault p.user "无" ++ ", 协议: " ++
    jsOrDefault p.protocol "无"

/-- The manual termination command shown for one occupant:
`kill -9 ${p.pid}`. -/
def killCmd (p : ProcessRecord) : String := "kill -9 " ++ jsTemplate p.pid

/-- The separator of the manual-command list: `join(' \n ')`. -/
def killCmdSep : String := " \n "

/-- The warning message built by `handleSystemPortRequest`. -/
def systemWarningMessage (port : Nat) (processes : List ProcessRecord) : String :=
  "警告: 端口 " ++ toString port ++
    " 属于系统关键端口，清理可能导致系统服务中断！" ++ newline ++
    "当前占用进程:" ++ newline ++
    jsJoin newline (processes.map describeProcess) ++ newline ++
    "如果需要清理，请在命令行中执行：" ++
    jsJoin killCmdSep (processes.map killCmd)

/-- `PortCleanerService.handleSystemPortRequest`: look up the occupants
(without any exception handler, so a lookup failure propagates) and
return the warning response. -/
def handleSystemPortRequest (env : Env) (port : Nat) :
    Except String ToolResponse × List Event :=
  match getProcessInfoByPort env with
  | .error e => (.error e, [.lookup])
  | .ok processes =>
      (.ok { content := [systemWarningMessage port processes], isError := false },
        [.lookup])

/-- `端口 ${port} 未被占用`. -/
def notOccupiedText (port : Nat) : String :=
  "端口 " ++ toString port ++ " 未被占用"

/-- `PortCleanerService.formatResponse`. -/
def formatResponse (results : TerminationOutcome) (port : Nat) : ToolResponse :=
  let successMsg :=
    if results.killedPids.length > 0 then
      "已终止进程: " ++ jsJoin ", " results.killedPids
    else "未找到相关进程"
  let errorMsg :=
    if results.failedPids.length > 0 then
      "无法终止进程: " ++ jsJoin ", " results.failedPids
    else ""
  { content := [successMsg, errorMsg]
    isError := decide (results.failedPids.length > 0) }

/-- The pid strings handed to the termination batch: `infos.map(info =>
info.pid)`; an `undefined` pid interpolates into the kill command as
the text "undefined". -/
def pidsOf (infos : List ProcessRecord) : List String :=
  infos.map fun i => jsTemplate i.pid

/-- `PortCleanerService.handlePortClean`: protected ports branch to the
warning path; otherwise the occupants are looked up inside a
`try`/`catch` (so a lookup failure becomes a `清理失败` error response),
an empty occupant list yields the non-error "not occupied" response,
and a non-empty one is passed to the termination batch whose outcome is
formatted by `formatResponse`. -/
def handlePortClean (env : Env) (port : Nat) :
    Except String ToolResponse × List Event :=
  if isSystemPort env.platform port then
    handleSystemPortRequest env port
  else
    match getProcessInfoByPort env with
    | .error e =>
        (.ok { content := ["清理失败: " ++ e], isError := true }, [.lookup])
    | .ok infos =>
        if infos.length = 0 then
          (.ok { content := [notOccupiedText port], isError := false }, [.lookup])
        else
          let pids := pidsOf infos
          (.ok (formatResponse (processTermination env.kill pids) port),
            .lookup :: pids.map Event.kill)

/-- One `CallTool` request as the dispatcher sees it: the tool name, the
`port` argument, the optional `action` argument, and the (truthy)
`requiresConfirmation` metadata flag. -/
structure CallRequest where
  name : String
  port : Nat
  action : Option String
  requiresConfirmation : Bool

/-- The text of the scan response: `端口 ${port} 使用情况:\n` followed by
one `describeProcess` line per record. -/
def scanText (port : Nat) (infos : List ProcessRecord) : String :=
  "端口 " ++ toString port ++ " 使用情况:" ++ newline ++
    jsJoin newline (infos.map describeProcess)

/-- Run `handlePortClean` under the dispatcher's `try`/`catch`: a
propagated exception becomes a `服务异常` error response. -/
def cleanOutcome (env : Env) (port : Nat) : ToolResponse × List Event :=
  match handlePortClean env port with
  | (.ok resp, tr) => (resp, tr)
  | (.error e, tr) => ({ content := ["服务异常: " ++ e], isError := true }, tr)

/-- The `CallToolRequestSchema` handler of `src/index.ts`: dispatch on
the tool name; for `port_clean` with truthy `requiresConfirmation`
metadata, only `action === 'confirm_cleanup'` proceeds to the service,
anything else returns the fixed cancellation response. -/
def handleCallTool (env : Env) (req : CallRequest) : ToolResponse × List Event :=
  if req.name = "port_scan" then
    match getProcessInfoByPort env with
    | .error e => ({ content := ["服务异常: " ++ e], isError := true }, [.lookup])
    | .ok infos => ({ content := [scanText req.port infos], isError := false }, [.lookup])
  else if req.name = "port_clean" then
    if req.requiresConfirmation then
      if req.action = some "confirm_cleanup" then cleanOutcome env req.port
      else ({ content := ["操作已取消"], isError := false }, [])
    else cleanOutcome env req.port
  else ({ content := ["不支持的工具: " ++ req.name], isError := true }, [])

/-! ## Helper lemmas -/

set_option maxRecDepth 8000

/-- `pat` occurs contiguously inside `s`. -/
def IsSubstr (pat s : String) : Prop := ∃ a b, s = a ++ pat ++ b

theorem isSubstr_refl (x : String) : IsSubstr x x :=
  ⟨"", "", by rw [String.empty_append, String.append_empty]⟩

theorem isSubstr_append_right (x a b : String) (h : IsSubstr x a) :
    IsSubstr x (a ++ b) := by
  obtain ⟨p, q, rfl⟩ := h
  exact ⟨p, q ++ b, String.append_assoc (p ++ x) q b⟩

theorem isSubstr_append_left (x a b : String) (h : IsSubstr x b) :
    IsSubstr x (a ++ b) := by
  obtain ⟨p, q, rfl⟩ := h
  refine ⟨a ++ p, q, ?_⟩
  rw [String.append_assoc a p x, String.append_assoc a (p ++ x) q]

theorem isSubstr_of_mem_jsJoin (sep x : String) (l : List String) (h : x ∈ l) :
    IsSubstr x (jsJoin sep l) := by
  induction l with
  | nil => cases h
  | cons y rest ih =>
    cases rest with
    | nil =>
      rw [List.mem_singleton] at h
      subst h
      exact isSubstr_refl x
    | cons z rest' =>
      have hj : jsJoin sep (y :: z :: rest') = y ++ sep ++ jsJoin sep (z :: rest') := rfl
      rw [hj]
      rcases List.mem_cons.mp h with h1 | h2
      · subst h1
        exact isSubstr_append_right x (x ++ sep) _
          (isSubstr_append_right x x sep (isSubstr_refl x))
      · exact isSubstr_append_left x (y ++ sep) _ (ih h2)

theorem attemptResultsFrom_length (kill : Nat → String → Bool) (i : Nat)
    (pids : List String) :
    (attemptResultsFrom kill i pids).length = pids.length := by
  induction pids generalizing i with
  | nil => rfl
  | cons p rest ih => simp [attemptResultsFrom, ih]

theorem attemptResultsFrom_get? (kill : Nat → String → Bool)
    (pids : List String) (i j : Nat) :
    (attemptResultsFrom kill i pids).get? j =
      (pids.get? j).map fun p => (p, kill (i + j) p) := by
  induction pids generalizing i j with
  | nil => simp [attemptResultsFrom]
  | cons p rest ih =>
    cases j with
    | zero => simp [attemptResultsFrom]
    | succ j =>
      have hstep : (attemptResultsFrom kill i (p :: rest)).get? (j + 1) =
          (attemptResultsFrom kill (i + 1) rest).get? j := rfl
      have harith : i + 1 + j = i + (j + 1) := by omega
      rw [hstep, ih (i + 1) j, harith]
      rfl

theorem map_fst_attemptResultsFrom (kill : Nat → String → Bool) (i : Nat)
    (pids : List String) :
    (attemptResultsFrom kill i pids).map Prod.fst = pids := by
  induction pids generalizing i with
  | nil => rfl
  | cons p rest ih => simp [attemptResultsFrom, ih]

theorem length_filter_add_length_filter_not {α : Type} (p : α → Bool)
    (l : List α) :
    (l.filter p).length + (l.filter fun a => !p a).length = l.length := by
  have h := (List.filter_append_perm p l).length_eq
  simpa [List.length_append] using h

theorem failedPids_eq_nil_iff (kill : Nat → String → Bool) (pids : List String) :
    (processTermination kill pids).failedPids = [] ↔
      ∀ (i : Nat) (h : i < pids.length), kill i (pids.get ⟨i, h⟩) = true := by
  have hchar : (processTermination kill pids).failedPids = [] ↔
      ∀ r ∈ attemptResultsFrom kill 0 pids, r.2 = true := by
    simp only [processTermination, List.map_eq_nil_iff, List.filter_eq_nil_iff]
    constructor
    · intro h r hr
      have := h r hr
      simpa using this
    · intro h r hr
      simp [h r hr]
  rw [hchar]
  constructor
  · intro hall i h
    have hget : (attemptResultsFrom kill 0 pids).get? i =
        some (pids.get ⟨i, h⟩, kill i (pids.get ⟨i, h⟩)) := by
      rw [attemptResultsFrom_get?, List.get?_eq_get h]
      simp
    exact hall _ (List.get?_mem hget)
  · intro hall r hr
    obtain ⟨j, hj⟩ := List.mem_iff_get?.mp hr
    rw [attemptResultsFrom_get?] at hj
    cases hp : pids.get? j with
    | none => rw [hp] at hj; simp at hj
    | some p =>
      rw [hp] at hj
      obtain ⟨hlt, hget⟩ := List.get?_eq_some.mp hp
      simp only [Option.map_some'] at hj
      have hr2 : r = (p, kill (0 + j) p) := (Option.some.inj hj).symm
      rw [hr2]
      have := hall j hlt
      rw [hget] at this
      simpa using this

theorem jsSplitTrim_token_ne_empty (line : List Char) (i : Nat) (hi : 1 ≤ i)
    (s : String) (h : (jsSplitTrim line).get? i = some s) : s ≠ "" := by
  simp only [jsSplitTrim] at h
  split at h
  · cases i with
    | zero => omega
    | succ n => simp at h
  · have hmem := List.get?_mem h
    obtain ⟨tok, htok, rfl⟩ := List.mem_map.mp hmem
    have hne := (List.mem_filter.mp htok).2
    intro heq
    have hdata : tok = [] := congrArg String.data heq
    rw [hdata] at hne
    simp at hne

theorem jsOrDefault_ne_empty (o : Option String) (d : String) (hd : d ≠ "") :
    jsOrDefault o d ≠ "" := by
  cases o with
  | none => simpa [jsOrDefault] using hd
  | some s =>
    cases hs : s.isEmpty with
    | true => simpa [jsOrDefault, hs] using hd
    | false =>
      simp only [jsOrDefault, hs, Bool.false_eq_true, if_false]
      intro heq
      rw [heq] at hs
      exact absurd hs (by decide)

/-! ## Claim theorems -/

/-- Claim C7: for every port number and every supported platform,
`isSystemPort` reports the port as protected iff the port lies in the
common reserved set (ports 0–1023) or in the current platform's
supplementary well-known-port set; the classification is a pure
function of the static table and takes no occupancy input. -/
theorem c7_classification (pf : Platform) (port : Nat) :
    isSystemPort pf port = true ↔ port < 1024 ∨ port ∈ platformPorts pf := by
  simp [isSystemPort, SYSTEM_PORTS_common, List.contains, List.elem_iff,
    List.mem_range]

/-- Claim C3 counterexample: with the input pid sequence `["1", "1"]`
and attempts whose first invocation succeeds while the second fails,
pid "1" is a member of both `killedPids` and `failedPids`, so the two
result sets are not disjoint. -/
theorem c3_partition_cex :
    "1" ∈ (processTermination (fun i _ => decide (i = 0)) ["1", "1"]).killedPids ∧
    "1" ∈ (processTermination (fun i _ => decide (i = 0)) ["1", "1"]).failedPids :=
  ⟨by decide, by decide⟩

/-- Claim C3 amended: `killedPids` and `failedPids` together contain
exactly the requested attempts (their concatenation is a permutation of
the input sequence), every requested pid appears in at least one of the
two, and when the input pids are pairwise distinct the two are disjoint
and partition the input pid set; a pid occurring twice with differing
attempt outcomes appears in both. -/
theorem c3_partition_amended (kill : Nat → String → Bool) (pids : List String) :
    ((processTermination kill pids).killedPids ++
      (processTermination kill pids).failedPids).Perm pids ∧
    (∀ p ∈ pids, p ∈ (processTermination kill pids).killedPids ∨
      p ∈ (processTermination kill pids).failedPids) ∧
    (pids.Nodup → ∀ p ∈ (processTermination kill pids).killedPids,
      p ∉ (processTermination kill pids).failedPids) := by
  have hperm : ((processTermination kill pids).killedPids ++
      (processTermination kill pids).failedPids).Perm pids := by
    have h := List.filter_append_perm (fun r : String × Bool => r.2)
      (attemptResultsFrom kill 0 pids)
    have h2 := h.map Prod.fst
    rw [List.map_append, map_fst_attemptResultsFrom] at h2
    simpa [processTermination] using h2
  refine ⟨hperm, ?_, ?_⟩
  · intro p hp
    exact List.mem_append.mp (hperm.mem_iff.mpr hp)
  · intro hnd p hpk hpf
    have hnd2 : ((processTermination kill pids).killedPids ++
        (processTermination kill pids).failedPids).Nodup :=
      hperm.nodup_iff.mpr hnd
    exact (List.nodup_append.mp hnd2).2.2 hpk hpf

/-- Witness for C3: concrete distinct pids are partitioned disjointly. -/
theorem c3_partition_witness :
    "100" ∉ (processTermination (fun _ _ => true) ["100", "200"]).failedPids :=
  (c3_partition_amended (fun _ _ => true) ["100", "200"]).2.2 (by decide)
    "100" (by decide)

/-- Claim C8: each per-pid termination attempt is isolated — the batch
outcome accounts for every attempt (the killed and failed lists'
lengths sum to the number of requested pids, so no attempt is skipped
or streamed partially), and the `i`-th requested pid lands in
`killedPids` or `failedPids` purely according to its own attempt's
result, regardless of the other attempts; failures are recorded, never
thrown (`processTermination` is a total function into
`TerminationOutcome`). -/
theorem c8_isolated_attempts (kill : Nat → String → Bool) (pids : List String) :
    (processTermination kill pids).killedPids.length +
      (processTermination kill pids).failedPids.length = pids.length ∧
    ∀ (i : Nat) (h : i < pids.length),
      (kill i (pids.get ⟨i, h⟩) = true →
        pids.get ⟨i, h⟩ ∈ (processTermination kill pids).killedPids) ∧
      (kill i (pids.get ⟨i, h⟩) = false →
        pids.get ⟨i, h⟩ ∈ (processTermination kill pids).failedPids) := by
  constructor
  · simp only [processTermination, List.length_map]
    exact (length_filter_add_length_filter_not (fun r : String × Bool => r.2)
      (attemptResultsFrom kill 0 pids)).trans
      (attemptResultsFrom_length kill 0 pids)
  · intro i h
    have hget : (attemptResultsFrom kill 0 pids).get? i =
        some (pids.get ⟨i, h⟩, kill i (pids.get ⟨i, h⟩)) := by
      rw [attemptResultsFrom_get?, List.get?_eq_get h]
      simp
    have hmem := List.get?_mem hget
    constructor
    · intro hk
      simp only [processTermination]
      exact List.mem_map.mpr ⟨(pids.get ⟨i, h⟩, kill i (pids.get ⟨i, h⟩)),
        List.mem_filter.mpr ⟨hmem, by simpa using hk⟩, rfl⟩
    · intro hk
      simp only [processTermination]
      exact List.mem_map.mpr ⟨(pids.get ⟨i, h⟩, kill i (pids.get ⟨i, h⟩)),
        List.mem_filter.mpr ⟨hmem, by simpa using hk⟩, rfl⟩

/-- Witness for C8: a concrete successful attempt lands in `killedPids`. -/
theorem c8_isolated_attempts_witness :
    "9" ∈ (processTermination (fun _ _ => true) ["9"]).killedPids :=
  ((c8_isolated_attempts (fun _ _ => true) ["9"]).2 0 (by decide)).1 rfl

/-- Claim C5 counterexample: a truncated POSIX row with a single column
("node") is not dropped by the parser — it emits a record — and that
record's pid field is absent, contradicting both "non-matching lines
are dropped" and "pid is present as a non-empty token in every emitted
record". -/
theorem c5_malformed_cex :
    parseOutput Platform.linux "node" =
      [{ pid := none, name := some "node", user := none, protocol := none }] :=
  rfl

/-- Claim C5 amended: the parser never raises an error; blank lines and
header rows (POSIX: lines containing "PID"; win32: lines not containing
"LISTENING") are dropped, but truncated data rows are not — every kept
line emits exactly one record — and a missing column yields an absent
optional field; the pid field, when present, is a non-empty token, but
it may be absent for a truncated POSIX row, and on win32 it is never
absent, defaulting to the placeholder "N/A". -/
theorem c5_malformed_amended (raw : String) :
    (parseOutput Platform.linux raw).length =
      ((rawLineLists raw).filter posixKeep).length ∧
    (∀ r ∈ parseOutput Platform.linux raw, ∀ s, r.pid = some s → s ≠ "") ∧
    (∀ r ∈ parseOutput Platform.win32 raw, ∃ s, r.pid = some s ∧ s ≠ "") := by
  refine ⟨by simp [parseOutput], ?_, ?_⟩
  · intro r hr s hs
    simp only [parseOutput] at hr
    obtain ⟨line, _, rfl⟩ := List.mem_map.mp hr
    simp only [parsePosixLine] at hs
    exact jsSplitTrim_token_ne_empty line 1 (by omega) s hs
  · intro r hr
    simp only [parseOutput] at hr
    obtain ⟨line, _, rfl⟩ := List.mem_map.mp hr
    exact ⟨jsOrDefault ((jsSplitTrim line).get? 4) "N/A", rfl,
      jsOrDefault_ne_empty _ _ (by decide)⟩

/-- Witness for C5: a well-formed row's pid token "100" is non-empty. -/
theorem c5_malformed_witness : ("100" : String) ≠ "" :=
  (c5_malformed_amended "sshd 100 root").2.1
    { pid := some "100", name := some "sshd", user := some "root", protocol := none }
    (by decide) "100" rfl

/-- Claim C9: every record produced by the win32 parser has a pid that
is never absent (it defaults to the placeholder "N/A" exactly when the
line's fifth column is missing), a name field holding the line's second
whitespace column (the local-address column of `netstat -ano` output),
and an always-absent user field; each record arises from a kept
(non-empty, LISTENING) output line. -/
theorem c9_win32_records (raw : String) :
    ∀ r ∈ parseOutput Platform.win32 raw,
      (∃ s, r.pid = some s ∧ s ≠ "") ∧ r.user = none ∧
      ∃ line ∈ rawLineLists raw, win32Keep line = true ∧
        r.name = (jsSplitTrim line).get? 1 ∧
        ((jsSplitTrim line).get? 4 = none → r.pid = some "N/A") := by
  intro r hr
  simp only [parseOutput] at hr
  obtain ⟨line, hline, rfl⟩ := List.mem_map.mp hr
  obtain ⟨hmem, hkeep⟩ := List.mem_filter.mp hline
  refine ⟨⟨jsOrDefault ((jsSplitTrim line).get? 4) "N/A", rfl,
    jsOrDefault_ne_empty _ _ (by decide)⟩, rfl, line, hmem, hkeep, rfl, ?_⟩
  intro h4
  simp only [parseWin32Line, h4]
  rfl

/-- Witness for C9: the 4-column LISTENING sample line yields a record
(with the "N/A" pid placeholder) whose user field is absent. -/
theorem c9_win32_records_witness :
    ({ pid := some "N/A", name := some "0.0.0.0:8080", user := none,
        protocol := some "TCP" } : ProcessRecord).user = none :=
  (c9_win32_records "  TCP    0.0.0.0:8080    0.0.0.0:0    LISTENING"
    { pid := some "N/A", name := some "0.0.0.0:8080", user := none,
      protocol := some "TCP" } (by decide)).2.1

/-- Concrete environment for the C1 counterexample: two occupants with
pids "100" and "200", where the first termination attempt succeeds and
the second fails. -/
def rawC1 : String :=
  "node 100 alice 23u IPv4 0x1 0t0 TCP *:8080\nnode 200 alice 24u IPv4 0x2 0t0 TCP *:8080"

/-- See `rawC1`. -/
def envC1 : Env :=
  { platform := .linux, lookupResult := .ok rawC1, kill := fun i _ => decide (i = 0) }

/-- Claim C1 counterexample: cleaning non-protected port 8080 with
occupant pids "100" (killed) and "200" (failed) yields a response whose
error flag is set even though one requested pid succeeded, so the flag
is not "set only if every requested pid failed". -/
theorem c1_error_flag_cex :
    (processTermination envC1.kill (pidsOf (parseOutput Platform.linux rawC1))).killedPids
      = ["100"] ∧
    (handlePortClean envC1 8080).1 =
      .ok { content := ["已终止进程: 100", "无法终止进程: 200"], isError := true } :=
  ⟨rfl, rfl⟩

/-- Claim C1 amended: for a non-protected occupied port the orchestration
response's error flag is set iff at least one requested pid failed —
equivalently, it is clear iff every termination attempt succeeded
(partial success still reports an error); the empty-port case returns a
non-error response (claim C6). -/
theorem c1_error_flag_amended (env : Env) (port : Nat) (raw : String)
    (hns : isSystemPort env.platform port = false)
    (hl : env.lookupResult = .ok raw)
    (hne : parseOutput env.platform raw ≠ []) :
    (handlePortClean env port).1 =
      .ok (formatResponse
        (processTermination env.kill (pidsOf (parseOutput env.platform raw))) port) ∧
    ((formatResponse
        (processTermination env.kill (pidsOf (parseOutput env.platform raw))) port).isError
        = false ↔
      ∀ (i : Nat) (h : i < (pidsOf (parseOutput env.platform raw)).length),
        env.kill i ((pidsOf (parseOutput env.platform raw)).get ⟨i, h⟩) = true) := by
  have hg : getProcessInfoByPort env = .ok (parseOutput env.platform raw) := by
    simp [getProcessInfoByPort, hl, Except.map]
  constructor
  · simp [handlePortClean, hns, hg, List.length_eq_zero, hne]
  · have hiso : (formatResponse
        (processTermination env.kill (pidsOf (parseOutput env.platform raw))) port).isError
        = decide ((processTermination env.kill
            (pidsOf (parseOutput env.platform raw))).failedPids.length > 0) := rfl
    rw [hiso]
    rw [show (decide ((processTermination env.kill
        (pidsOf (parseOutput env.platform raw))).failedPids.length > 0) = false) ↔
        ((processTermination env.kill
          (pidsOf (parseOutput env.platform raw))).failedPids = []) by
      simp [List.length_eq_zero, Nat.pos_iff_ne_zero]]
    exact failedPids_eq_nil_iff env.kill (pidsOf (parseOutput env.platform raw))

/-- Concrete environment for the C1 witness: one occupant whose
termination succeeds. -/
def rawW1 : String := "node 4321 alice 23u IPv4 0x1 0t0 TCP *:8080"

/-- See `rawW1`. -/
def envW1 : Env :=
  { platform := .linux, lookupResult := .ok rawW1, kill := fun _ _ => true }

/-- Witness for C1: the amended theorem applies to a concrete
non-protected occupied port. -/
theorem c1_error_flag_witness :
    (handlePortClean envW1 8080).1 =
      .ok (formatResponse
        (processTermination envW1.kill (pidsOf (parseOutput envW1.platform rawW1))) 8080) :=
  (c1_error_flag_amended envW1 8080 rawW1 (by decide) rfl (by decide)).1

/-- Claim C2: for a protected port, `handlePortClean` never invokes the
termination facility (no kill event is ever traced), and whenever the
occupant lookup succeeds it returns the warning payload — error flag
clear, single text segment equal to the warning message, which contains
each occupant's description line and each occupant's manual `kill -9`
command. -/
theorem c2_protected_warning (env : Env) (port : Nat)
    (hp : isSystemPort env.platform port = true) :
    (∀ pid, Event.kill pid ∉ (handlePortClean env port).2) ∧
    ∀ raw, env.lookupResult = .ok raw →
      (handlePortClean env port).1 =
        .ok { content := [systemWarningMessage port (parseOutput env.platform raw)],
              isError := false } ∧
      ∀ p ∈ parseOutput env.platform raw,
        IsSubstr (describeProcess p)
          (systemWarningMessage port (parseOutput env.platform raw)) ∧
        IsSubstr (killCmd p)
          (systemWarningMessage port (parseOutput env.platform raw)) := by
  constructor
  · intro pid
    simp only [handlePortClean, hp, if_true, handleSystemPortRequest]
    cases hg : getProcessInfoByPort env <;> simp
  · intro raw hraw
    have hg : getProcessInfoByPort env = .ok (parseOutput env.platform raw) := by
      simp [getProcessInfoByPort, hraw, Except.map]
    constructor
    · simp [handlePortClean, hp, handleSystemPortRequest, hg]
    · intro p hp2
      constructor
      · apply isSubstr_append_right
        apply isSubstr_append_right
        apply isSubstr_append_right
        apply isSubstr_append_left
        exact isSubstr_of_mem_jsJoin newline _ _
          (List.mem_map_of_mem describeProcess hp2)
      · apply isSubstr_append_left
        exact isSubstr_of_mem_jsJoin killCmdSep _ _
          (List.mem_map_of_mem killCmd hp2)

/-- Concrete environment for the C2 witness: protected port 22 with one
occupant. -/
def envC2 : Env :=
  { platform := .linux,
    lookupResult := .ok "sshd 100 root 3u IPv4 0x0 0t0 TCP *:22",
    kill := fun _ _ => false }

/-- Witness for C2: no kill is invoked when cleaning protected port 22. -/
theorem c2_protected_warning_witness :
    Event.kill "100" ∉ (handlePortClean envC2 22).2 :=
  (c2_protected_warning envC2 22 (by decide)).1 "100"

/-- Concrete environment for the C4 counterexample: protected port with
a failing lookup. -/
def envC4 : Env :=
  { platform := .linux, lookupResult := .error "lsof exploded",
    kill := fun _ _ => false }

/-- Claim C4 counterexample: for protected port 22, when the occupant
lookup fails abnormally, `handlePortClean` does not return the
best-effort warning response — the failure propagates out of the call
(the returned promise rejects), contradicting "the failure is swallowed
and treated as an empty occupant list". -/
theorem c4_swallow_cex :
    isSystemPort envC4.platform 22 = true ∧
    (handlePortClean envC4 22).1 = .error "lsof exploded" :=
  ⟨by decide, rfl⟩

/-- Claim C4 amended: a lookup failure during the protected-port warning
path is not swallowed by `handlePortClean`; it propagates out of the
handler (after the lookup invocation, with no termination attempted),
and the top-level dispatcher's catch-all converts it into a `服务异常`
error response instead of a best-effort warning. -/
theorem c4_swallow_amended (env : Env) (port : Nat) (e : String)
    (hp : isSystemPort env.platform port = true)
    (hl : env.lookupResult = .error e) :
    handlePortClean env port = (.error e, [Event.lookup]) ∧
    handleCallTool env
        { name := "port_clean", port := port, action := none,
          requiresConfirmation := false } =
      ({ content := ["服务异常: " ++ e], isError := true }, [Event.lookup]) := by
  have h1 : handlePortClean env port = (.error e, [Event.lookup]) := by
    simp [handlePortClean, hp, handleSystemPortRequest, getProcessInfoByPort,
      hl, Except.map]
  refine ⟨h1, ?_⟩
  simp [handleCallTool, cleanOutcome, h1]

/-- Witness for C4: the amended theorem applies to the concrete failing
environment, giving the dispatcher-level error response. -/
theorem c4_swallow_witness :
    handleCallTool envC4
        { name := "port_clean", port := 22, action := none,
          requiresConfirmation := false } =
      ({ content := ["服务异常: lsof exploded"], isError := true },
        [Event.lookup]) :=
  (c4_swallow_amended envC4 22 "lsof exploded" (by decide) rfl).2

/-- Claim C6: for a non-protected port whose lookup reports no lines,
the lookup result is the empty sequence and not an error, and the
clean path returns the explicit non-error "port not occupied" response
with no termination attempted (no kill event in the trace). -/
theorem c6_not_occupied (env : Env) (port : Nat) (raw : String)
    (hns : isSystemPort env.platform port = false)
    (hl : env.lookupResult = .ok raw)
    (hempty : parseOutput env.platform raw = []) :
    getProcessInfoByPort env = .ok [] ∧
    handlePortClean env port =
      (.ok { content := [notOccupiedText port], isError := false },
        [Event.lookup]) ∧
    ∀ pid, Event.kill pid ∉ (handlePortClean env port).2 := by
  have hg : getProcessInfoByPort env = .ok [] := by
    simp [getProcessInfoByPort, hl, Except.map, hempty]
  have h2 : handlePortClean env port =
      (.ok { content := [notOccupiedText port], isError := false },
        [Event.lookup]) := by
    simp [handlePortClean, hns, hg]
  refine ⟨hg, h2, ?_⟩
  intro pid
  rw [h2]
  simp

/-- Concrete environment for the C6 witness: empty lookup output on a
non-reserved port. -/
def envC6 : Env :=
  { platform := .linux, lookupResult := .ok "", kill := fun _ _ => true }

/-- Witness for C6: port 54321 with empty lookup output yields the
non-error "not occupied" response. -/
theorem c6_not_occupied_witness :
    handlePortClean envC6 54321 =
      (.ok { content := [notOccupiedText 54321], isError := false },
        [Event.lookup]) :=
  (c6_not_occupied envC6 54321 "" (by decide) rfl rfl).2.1

/-- Claim C10: a `port_clean` request whose metadata sets
`requiresConfirmation` and whose arguments do not carry
`action = 'confirm_cleanup'` is answered by the dispatcher with the
fixed non-error cancellation response; the result is the same for every
environment (so no classification is consulted) and the event trace is
empty (no lookup and no termination run). -/
theorem c10_confirmation_cancel (env : Env) (req : CallRequest)
    (hn : req.name = "port_clean")
    (hc : req.requiresConfirmation = true)
    (ha : req.action ≠ some "confirm_cleanup") :
    handleCallTool env req = ({ content := ["操作已取消"], isError := false }, []) := by
  obtain ⟨name, port, action, rc⟩ := req
  simp only at hn hc ha
  subst hn
  subst hc
  simp [handleCallTool, ha]

/-- Witness for C10: a concrete unconfirmed `port_clean` request is
cancelled without consulting the environment. -/
theorem c10_confirmation_cancel_witness :
    handleCallTool envC6
        { name := "port_clean", port := 8080, action := none,
          requiresConfirmation := true } =
      ({ content := ["操作已取消"], isError := false }, []) :=
  c10_confirmation_cancel envC6 _ rfl rfl (by decide)

end PortCleaner
